import Mathlib

/-!
Verification of the router core (`src/packages/router/src/Router.ts`) of the
xhr-mock repository, as a shallow embedding in Lean 4.

The Router class owns an ordered middleware list and an event emitter, and
exposes a registration API (`use` plus HTTP-verb aliases), an event
subscription API (`on` / `off`), and two dispatch entry points
(`routeSync` / `routeAsync`).  The external collaborators
(`normaliseRequest`, `normaliseContext`, `createMiddleware`, the chain
executors `routeSync`/`routeAsync` from `utils/`, and `isRedirect`) are not
part of the visible source; they are modelled as universally quantified
parameters, so every theorem below holds for every behaviour of those
collaborators.  The `mitt` event emitter is modelled from the spec
(a minimal observer registry: subscribe appends, unsubscribe removes the
first matching listener, publish fans out in subscription order).

JavaScript exceptions are modelled with `Except ε`; the thrown value is an
arbitrary type `ε`.  The possibly non-terminating redirect `do … while`
loop is modelled with explicit fuel; running out of fuel is reported as a
distinct outcome, never confused with normal return or with a raise.
-/

namespace XhrMock

/-- HTTP method pattern: a plain string in the source (`'*'`, `'get'`, …). -/
abbrev MethodPattern := String

/-- URL-path pattern: `string | RegExp` in the source.  A RegExp is opaque
here and identified by an id. -/
inductive URLPathPattern where
  | str (s : String)
  | regexp (id : Nat)
deriving DecidableEq, Repr

/-- JavaScript truthiness of a `URLPathPattern` value: the empty string is
falsy, every other string and every RegExp object is truthy. -/
def URLPathPattern.truthy : URLPathPattern → Bool
  | .str s => !(s == "")
  | .regexp _ => true

/-- A canonical (normalised) request.  The router core itself reads only
`url`; `method` is kept because registration patterns match against it. -/
structure Request where
  method : String
  url : String
deriving DecidableEq, Repr

/-- A partial request as passed to a dispatch entry point
(`Partial<Request>` in the source): every field optional. -/
structure RawRequest where
  method : Option String := none
  url : Option String := none
deriving DecidableEq, Repr

/-- A canonical response: status code, headers, body.  The router core
never inspects a response itself; it only hands it to the redirect
classifier and spreads its fields into the returned RouteResult. -/
structure Response where
  status : Nat
  headers : List (String × String)
  body : Option String
deriving DecidableEq, Repr

/-- A static response used at registration time (`Partial<Response>`):
carries only the fields the author wants to fix. -/
structure ResponsePatch where
  status : Option Nat := none
  headers : Option (List (String × String)) := none
  body : Option String := none
deriving DecidableEq, Repr

/-- The execution tag carried by the per-dispatch context: exactly two
values, set once at the start of a dispatch call. -/
inductive ExecutionContext where
  | Synchronous
  | Asynchronous
deriving DecidableEq, Repr

/-- Per-dispatch context: the `execution` tag plus a `data` field standing
for the additional fields normalisation may add. -/
structure Context where
  execution : ExecutionContext
  data : Nat
deriving DecidableEq, Repr

/-- A middleware value.  Its calling contract belongs to the external chain
executor, so it is opaque here: an identifier. -/
structure Middleware where
  id : Nat
deriving DecidableEq, Repr

/-- The third positional argument of the three-argument `use` overload:
`Middleware<RequestWithParameters> | Partial<Response>`.  Both variants are
JavaScript functions or objects, hence always truthy when present. -/
inductive MiddlewareOrResponse where
  | middlewareFn (id : Nat)
  | response (r : ResponsePatch)
deriving DecidableEq, Repr

/-- The first positional argument of `use`: either a middleware function or
a method-pattern string.  The source discriminates the overloads at runtime
with `typeof methodOrMiddleware === 'function'`. -/
inductive UseFirstArg where
  | fn (m : Middleware)
  | method (s : MethodPattern)
deriving DecidableEq, Repr

/-- The value thrown by malformed registration calls:
`new TypeError('Invalid arguments.')`. -/
inductive RegError where
  | typeError (msg : String)
deriving DecidableEq, Repr

/-- Dispatch options (`RouteOptions`): an optional `redirect` field.  A
missing field is `undefined`, hence falsy; the string `'follow'` is truthy.
The empty string would also be falsy. -/
structure RouteOptions where
  redirect : Option String := none
deriving DecidableEq, Repr

/-- JavaScript truthiness of `options.redirect`: a present non-empty string
is truthy, a missing field (undefined) or empty string is falsy. -/
def RouteOptions.redirectTruthy (o : RouteOptions) : Bool :=
  match o.redirect with
  | some s => !(s == "")
  | none => false

/-- The default value of the `options` parameter of both dispatch entry
points: `{redirect: 'follow'}`. -/
def defaultRouteOptions : RouteOptions := { redirect := some "follow" }

/-- The value returned by a dispatch call: `url`, `redirected`, plus all
fields of the final response (the object spread `...normalisedResponse`;
`Response` has no `url`/`redirected` fields, so the spread is exactly the
response component). -/
structure RouteResult where
  url : String
  redirected : Bool
  response : Response
deriving DecidableEq, Repr

/-- The three event kinds the emitter supports. -/
inductive EventType where
  | before
  | after
  | error
deriving DecidableEq, Repr

/-- An emitted event with its payload, polymorphic in the thrown-value type
`ε` because the `error` payload carries the caught exception. -/
inductive Event (ε : Type) where
  | before (request : Request) (context : Context)
  | after (request : Request) (response : Response) (context : Context)
  | error (request : Request) (e : ε) (context : Context)
deriving DecidableEq

/-- A listener reference: the internal default error listener subscribed at
construction, or a user-supplied function identified by an id.  The default
listener's function reference is module-internal in the source, so user
subscription calls can only ever pass `user` references. -/
inductive Listener where
  | defaultError
  | user (id : Nat)
deriving DecidableEq, Repr

/-- Modelled from the spec: the `mitt` emitter's `on` (missing from src/)
appends the listener to the list for its event kind. -/
def emitterOn (ls : List Listener) (l : Listener) : List Listener :=
  ls ++ [l]

/-- Modelled from the spec: the `mitt` emitter's `off` (missing from src/)
removes the first occurrence of exactly the given listener reference;
removing a listener that is not subscribed is a no-op. -/
def emitterOff (ls : List Listener) (l : Listener) : List Listener :=
  ls.erase l

/-- Router state: the listener lists of the owned emitter (one per event
kind) and the ordered middleware list. -/
structure RouterState where
  beforeListeners : List Listener
  afterListeners : List Listener
  errorListeners : List Listener
  middleware : List Middleware
deriving DecidableEq, Repr

/-- `new Router()`: empty middleware list; the constructor subscribes the
internal default error listener to `error`. -/
def RouterState.new : RouterState :=
  { beforeListeners := []
    afterListeners := []
    errorListeners := [.defaultError]
    middleware := [] }

/-- `Router.on(type, listener)`: subscribe via the emitter, then, when the
kind is `error`, unsubscribe the default error listener. -/
def RouterState.on (r : RouterState) (t : EventType) (l : Listener) :
    RouterState :=
  match t with
  | .before => { r with beforeListeners := emitterOn r.beforeListeners l }
  | .after => { r with afterListeners := emitterOn r.afterListeners l }
  | .error =>
      { r with
        errorListeners :=
          emitterOff (emitterOn r.errorListeners l) .defaultError }

/-- `Router.off(type, listener)`: unsubscribe via the emitter. -/
def RouterState.off (r : RouterState) (t : EventType) (l : Listener) :
    RouterState :=
  match t with
  | .before => { r with beforeListeners := emitterOff r.beforeListeners l }
  | .after => { r with afterListeners := emitterOff r.afterListeners l }
  | .error => { r with errorListeners := emitterOff r.errorListeners l }

/-- The listeners an emitted `error` event is delivered to, in order
(the emitter's fan-out is the subscription list in subscription order). -/
def RouterState.errorDelivery (r : RouterState) : List Listener :=
  r.errorListeners

/-- `Router.use`, all three runtime shapes.  A function first argument is
pushed as-is — the source checks `typeof methodOrMiddleware === 'function'`
first and ignores any further arguments.  Otherwise, when
`path && middlewareOrResponse` is truthy, the middleware synthesized by the
external `createMiddleware` (here the parameter `cm`) is pushed.  Every
remaining shape throws `TypeError('Invalid arguments.')`; an error result
carries no state, mirroring that the source throws before any push. -/
def RouterState.use
    (cm : MethodPattern → URLPathPattern → MiddlewareOrResponse → Middleware)
    (r : RouterState) (first : UseFirstArg) (path : Option URLPathPattern)
    (mor : Option MiddlewareOrResponse) : Except RegError RouterState :=
  match first with
  | .fn m => .ok { r with middleware := r.middleware ++ [m] }
  | .method s =>
      match path, mor with
      | some p, some m =>
          if p.truthy then
            .ok { r with middleware := r.middleware ++ [cm s p m] }
          else
            .error (.typeError "Invalid arguments.")
      | _, _ => .error (.typeError "Invalid arguments.")

/-- `Router.all(path, mor)`: alias for `use('*', path, mor)`. -/
def RouterState.all
    (cm : MethodPattern → URLPathPattern → MiddlewareOrResponse → Middleware)
    (r : RouterState) (p : URLPathPattern) (m : MiddlewareOrResponse) :
    Except RegError RouterState :=
  r.use cm (.method "*") (some p) (some m)

/-- `Router.options(path, mor)`: alias for `use('options', path, mor)`. -/
def RouterState.optionsVerb
    (cm : MethodPattern → URLPathPattern → MiddlewareOrResponse → Middleware)
    (r : RouterState) (p : URLPathPattern) (m : MiddlewareOrResponse) :
    Except RegError RouterState :=
  r.use cm (.method "options") (some p) (some m)

/-- `Router.head(path, mor)`: alias for `use('head', path, mor)`. -/
def RouterState.head
    (cm : MethodPattern → URLPathPattern → MiddlewareOrResponse → Middleware)
    (r : RouterState) (p : URLPathPattern) (m : MiddlewareOrResponse) :
    Except RegError RouterState :=
  r.use cm (.method "head") (some p) (some m)

/-- `Router.get(path, mor)`: alias for `use('get', path, mor)`. -/
def RouterState.get
    (cm : MethodPattern → URLPathPattern → MiddlewareOrResponse → Middleware)
    (r : RouterState) (p : URLPathPattern) (m : MiddlewareOrResponse) :
    Except RegError RouterState :=
  r.use cm (.method "get") (some p) (some m)

/-- `Router.post(path, mor)`: alias for `use('post', path, mor)`. -/
def RouterState.post
    (cm : MethodPattern → URLPathPattern → MiddlewareOrResponse → Middleware)
    (r : RouterState) (p : URLPathPattern) (m : MiddlewareOrResponse) :
    Except RegError RouterState :=
  r.use cm (.method "post") (some p) (some m)

/-- `Router.put(path, mor)`: alias for `use('put', path, mor)`. -/
def RouterState.put
    (cm : MethodPattern → URLPathPattern → MiddlewareOrResponse → Middleware)
    (r : RouterState) (p : URLPathPattern) (m : MiddlewareOrResponse) :
    Except RegError RouterState :=
  r.use cm (.method "put") (some p) (some m)

/-- `Router.patch(path, mor)`: alias for `use('patch', path, mor)`. -/
def RouterState.patch
    (cm : MethodPattern → URLPathPattern → MiddlewareOrResponse → Middleware)
    (r : RouterState) (p : URLPathPattern) (m : MiddlewareOrResponse) :
    Except RegError RouterState :=
  r.use cm (.method "patch") (some p) (some m)

/-- `Router.delete(path, mor)`: alias for `use('delete', path, mor)`. -/
def RouterState.delete
    (cm : MethodPattern → URLPathPattern → MiddlewareOrResponse → Middleware)
    (r : RouterState) (p : URLPathPattern) (m : MiddlewareOrResponse) :
    Except RegError RouterState :=
  r.use cm (.method "delete") (some p) (some m)

/-- The outcome of one run of the `do … while` loop body sequence:
`done` with the accumulated events and the chain's final value (a response,
or the first thrown value), or `fuelOut` when the supplied fuel was spent
before the loop exited (the source loop can in principle run forever, since
the redirect TODO re-dispatches the same request). -/
inductive LoopRun (ε : Type) where
  | done (events : List (Event ε)) (res : Except ε Response)
  | fuelOut (events : List (Event ε))

/-- The `do … while` dispatch loop shared verbatim by both entry points:
emit `before`, call the chain executor (`exec i` is its result on the
`i`-th iteration, so stateful executors are allowed), emit `after`, then
continue iff `options.redirect` is truthy AND `isRedirect(response)` is
true — with JavaScript short-circuit: the classifier is not consulted when
the redirect option is falsy.  The request and context never change between
iterations (the redirect follow-up request is an unimplemented TODO in the
source). -/
def dispatchLoop {ε : Type} (exec : Nat → Except ε Response)
    (isRed : Response → Except ε Bool) (redirect : Bool)
    (req : Request) (ctx : Context) : Nat → Nat → LoopRun ε
  | _, 0 => .fuelOut []
  | i, fuel + 1 =>
      match exec i with
      | .error e => .done [.before req ctx] (.error e)
      | .ok resp =>
          let evs : List (Event ε) := [.before req ctx, .after req resp ctx]
          if redirect then
            match isRed resp with
            | .error e => .done evs (.error e)
            | .ok true =>
                match dispatchLoop exec isRed redirect req ctx (i + 1) fuel with
                | .done evs2 res => .done (evs ++ evs2) res
                | .fuelOut evs2 => .fuelOut (evs ++ evs2)
            | .ok false => .done evs (.ok resp)
          else
            .done evs (.ok resp)

/-- The observable outcome of a dispatch call: the emitted events plus the
returned RouteResult, or the events plus the value raised to the caller
(`routeSync` raises it, `routeAsync` rejects with it), or fuel exhaustion
of the redirect loop. -/
inductive RouteOutcome (ε : Type) where
  | ok (events : List (Event ε)) (result : RouteResult)
  | raised (events : List (Event ε)) (e : ε)
  | fuelOut (events : List (Event ε))

/-- `Router.routeSync(request, options = {redirect: 'follow'})`.
Normalisation of the request and construction of the context happen before
the `try`, so a failure there propagates with no event emitted.  The loop
then runs inside the `try`; on success the RouteResult is
`{url: request.url, redirected: false, ...response}`; on a thrown value the
`catch` block emits one `error` event with the current request and context
and re-raises the same value.  `exec i req ctx mws` is the result of the
external chain executor `routeSync(request, context, middleware)` on the
`i`-th iteration; `nr` and `nc` are the external `normaliseRequest` and
`normaliseContext`. -/
def Router.routeSync {ε : Type}
    (exec : Nat → Request → Context → List Middleware → Except ε Response)
    (isRed : Response → Except ε Bool)
    (nr : RawRequest → Except ε Request)
    (nc : ExecutionContext → Except ε Context)
    (r : RouterState) (request : RawRequest) (opts : Option RouteOptions)
    (fuel : Nat) : RouteOutcome ε :=
  let options := opts.getD defaultRouteOptions
  match nr request with
  | .error e => .raised [] e
  | .ok req =>
      match nc .Synchronous with
      | .error e => .raised [] e
      | .ok ctx =>
          match dispatchLoop (fun i => exec i req ctx r.middleware) isRed
              options.redirectTruthy req ctx 0 fuel with
          | .done evs (.ok resp) =>
              .ok evs { url := req.url, redirected := false, response := resp }
          | .done evs (.error e) =>
              .raised (evs ++ [.error req e ctx]) e
          | .fuelOut evs => .fuelOut evs

/-- `Router.routeAsync(request, options = {redirect: 'follow'})`: the
suspending variant, a textual copy of `routeSync` except that the context
is constructed with the `Asynchronous` tag and the chain executor call is
awaited; a raised value becomes a promise rejection. -/
def Router.routeAsync {ε : Type}
    (exec : Nat → Request → Context → List Middleware → Except ε Response)
    (isRed : Response → Except ε Bool)
    (nr : RawRequest → Except ε Request)
    (nc : ExecutionContext → Except ε Context)
    (r : RouterState) (request : RawRequest) (opts : Option RouteOptions)
    (fuel : Nat) : RouteOutcome ε :=
  let options := opts.getD defaultRouteOptions
  match nr request with
  | .error e => .raised [] e
  | .ok req =>
      match nc .Asynchronous with
      | .error e => .raised [] e
      | .ok ctx =>
          match dispatchLoop (fun i => exec i req ctx r.middleware) isRed
              options.redirectTruthy req ctx 0 fuel with
          | .done evs (.ok resp) =>
              .ok evs { url := req.url, redirected := false, response := resp }
          | .done evs (.error e) =>
              .raised (evs ++ [.error req e ctx]) e
          | .fuelOut evs => .fuelOut evs

/-- Number of `before` events in a trace. -/
def countBefore {ε : Type} : List (Event ε) → Nat
  | [] => 0
  | .before _ _ :: rest => countBefore rest + 1
  | _ :: rest => countBefore rest

/-- Number of `after` events in a trace. -/
def countAfter {ε : Type} : List (Event ε) → Nat
  | [] => 0
  | .after _ _ _ :: rest => countAfter rest + 1
  | _ :: rest => countAfter rest

/-- Number of `error` events in a trace. -/
def countError {ε : Type} : List (Event ε) → Nat
  | [] => 0
  | .error _ _ _ :: rest => countError rest + 1
  | _ :: rest => countError rest

/-- The events a loop run emitted. -/
def LoopRun.events {ε : Type} : LoopRun ε → List (Event ε)
  | .done evs _ => evs
  | .fuelOut evs => evs

/-- The events a dispatch call emitted. -/
def RouteOutcome.events {ε : Type} : RouteOutcome ε → List (Event ε)
  | .ok evs _ => evs
  | .raised evs _ => evs
  | .fuelOut evs => evs

/-- Forget a context's execution tag (normalise it to `Synchronous`), for
comparing the two dispatch entry points modulo the tag. -/
def Context.scrub (c : Context) : Context :=
  { c with execution := .Synchronous }

/-- Forget the execution tags inside an event. -/
def Event.scrub {ε : Type} : Event ε → Event ε
  | .before req c => .before req c.scrub
  | .after req resp c => .after req resp c.scrub
  | .error req e c => .error req e c.scrub

/-- Forget the execution tags inside a loop run. -/
def LoopRun.scrub {ε : Type} : LoopRun ε → LoopRun ε
  | .done evs res => .done (evs.map Event.scrub) res
  | .fuelOut evs => .fuelOut (evs.map Event.scrub)

/-- Forget the execution tags inside a dispatch outcome. -/
def RouteOutcome.scrub {ε : Type} : RouteOutcome ε → RouteOutcome ε
  | .ok evs res => .ok (evs.map Event.scrub) res
  | .raised evs e => .raised (evs.map Event.scrub) e
  | .fuelOut evs => .fuelOut (evs.map Event.scrub)

/-- One registration call: a raw `use` call with any runtime argument
shape, or one of the eight HTTP-verb convenience wrappers. -/
inductive RegOp where
  | use (first : UseFirstArg) (path : Option URLPathPattern)
      (mor : Option MiddlewareOrResponse)
  | all (p : URLPathPattern) (m : MiddlewareOrResponse)
  | optionsVerb (p : URLPathPattern) (m : MiddlewareOrResponse)
  | head (p : URLPathPattern) (m : MiddlewareOrResponse)
  | get (p : URLPathPattern) (m : MiddlewareOrResponse)
  | post (p : URLPathPattern) (m : MiddlewareOrResponse)
  | put (p : URLPathPattern) (m : MiddlewareOrResponse)
  | patch (p : URLPathPattern) (m : MiddlewareOrResponse)
  | delete (p : URLPathPattern) (m : MiddlewareOrResponse)
deriving DecidableEq

/-- Execute one registration call against a router state. -/
def applyReg
    (cm : MethodPattern → URLPathPattern → MiddlewareOrResponse → Middleware)
    (r : RouterState) : RegOp → Except RegError RouterState
  | .use first path mor => r.use cm first path mor
  | .all p m => r.all cm p m
  | .optionsVerb p m => r.optionsVerb cm p m
  | .head p m => r.head cm p m
  | .get p m => r.get cm p m
  | .post p m => r.post cm p m
  | .put p m => r.put cm p m
  | .patch p m => r.patch cm p m
  | .delete p m => r.delete cm p m

/-- Execute a sequence of registration calls, stopping at the first
raised argument error. -/
def applyRegs
    (cm : MethodPattern → URLPathPattern → MiddlewareOrResponse → Middleware)
    (r : RouterState) : List RegOp → Except RegError RouterState
  | [] => .ok r
  | op :: rest =>
      match applyReg cm r op with
      | .error e => .error e
      | .ok r1 => applyRegs cm r1 rest

/-- The middleware a registration call appends when it succeeds (for a
failing call the value is irrelevant). -/
def regMiddleware
    (cm : MethodPattern → URLPathPattern → MiddlewareOrResponse → Middleware) :
    RegOp → Middleware
  | .use (.fn m) _ _ => m
  | .use (.method s) (some p) (some m) => cm s p m
  | .use (.method _) _ _ => ⟨0⟩
  | .all p m => cm "*" p m
  | .optionsVerb p m => cm "options" p m
  | .head p m => cm "head" p m
  | .get p m => cm "get" p m
  | .post p m => cm "post" p m
  | .put p m => cm "put" p m
  | .patch p m => cm "patch" p m
  | .delete p m => cm "delete" p m

/-- One event-subscription call made by a user of the router.  The default
error listener's function reference is module-internal in the source, so a
user can only pass `Listener.user` references; the id identifies the
function object. -/
inductive ListenOp where
  | on (t : EventType) (id : Nat)
  | off (t : EventType) (id : Nat)
deriving DecidableEq

/-- Execute one subscription call against a router state. -/
def applyListen (r : RouterState) : ListenOp → RouterState
  | .on t id => r.on t (.user id)
  | .off t id => r.off t (.user id)

/-- Execute a sequence of subscription calls. -/
def applyListens (r : RouterState) (ops : List ListenOp) : RouterState :=
  ops.foldl applyListen r

/-! ### Helper lemmas shared by several claim proofs -/

theorem countBefore_append {ε : Type} (l1 l2 : List (Event ε)) :
    countBefore (l1 ++ l2) = countBefore l1 + countBefore l2 := by
  induction l1 with
  | nil => simp [countBefore]
  | cons e rest ih =>
      cases e with
      | before _ _ =>
          simp only [List.cons_append, List.append_eq, countBefore, ih]; omega
      | after _ _ _ =>
          simp only [List.cons_append, List.append_eq, countBefore, ih]
      | error _ _ _ =>
          simp only [List.cons_append, List.append_eq, countBefore, ih]

theorem countError_append {ε : Type} (l1 l2 : List (Event ε)) :
    countError (l1 ++ l2) = countError l1 + countError l2 := by
  induction l1 with
  | nil => simp [countError]
  | cons e rest ih =>
      cases e with
      | before _ _ =>
          simp only [List.cons_append, List.append_eq, countError, ih]
      | after _ _ _ =>
          simp only [List.cons_append, List.append_eq, countError, ih]
      | error _ _ _ =>
          simp only [List.cons_append, List.append_eq, countError, ih]; omega

/-- One-step unfolding of the loop at positive fuel. -/
theorem dispatchLoop_succ {ε : Type} (exec : Nat → Except ε Response)
    (isRed : Response → Except ε Bool) (red : Bool) (req : Request)
    (ctx : Context) (i fuel : Nat) :
    dispatchLoop exec isRed red req ctx i (fuel + 1) =
      match exec i with
      | .error e => .done [.before req ctx] (.error e)
      | .ok resp =>
          if red then
            match isRed resp with
            | .error e =>
                .done [.before req ctx, .after req resp ctx] (.error e)
            | .ok true =>
                match dispatchLoop exec isRed red req ctx (i + 1) fuel with
                | .done evs2 res =>
                    .done (.before req ctx :: .after req resp ctx :: evs2) res
                | .fuelOut evs2 =>
                    .fuelOut (.before req ctx :: .after req resp ctx :: evs2)
            | .ok false =>
                .done [.before req ctx, .after req resp ctx] (.ok resp)
          else
            .done [.before req ctx, .after req resp ctx] (.ok resp) := rfl

/-- When the chain's response on iteration `i` is produced and the loop is
not continued — because the redirect option is falsy or the classifier says
"not a redirect" — the loop stops after exactly this iteration, having
emitted one `before` and one `after` event. -/
theorem dispatchLoop_once {ε : Type} (exec : Nat → Except ε Response)
    (isRed : Response → Except ε Bool) (red : Bool) (req : Request)
    (ctx : Context) (i fuel : Nat) (resp : Response)
    (hex : exec i = .ok resp) (hfuel : 1 ≤ fuel)
    (hstop : red = false ∨ isRed resp = .ok false) :
    dispatchLoop exec isRed red req ctx i fuel =
      .done [.before req ctx, .after req resp ctx] (.ok resp) := by
  obtain ⟨f, rfl⟩ : ∃ f, fuel = f + 1 :=
    ⟨fuel - 1, (Nat.succ_pred_eq_of_pos hfuel).symm⟩
  rw [dispatchLoop_succ, hex]
  rcases hstop with h | h
  · subst h
    rfl
  · cases red
    · rfl
    · simp [h]

/-- Any loop run with positive fuel emits at least one `before` event. -/
theorem countBefore_dispatchLoop_pos {ε : Type} (exec : Nat → Except ε Response)
    (isRed : Response → Except ε Bool) (red : Bool) (req : Request)
    (ctx : Context) :
    ∀ fuel i, 1 ≤ fuel →
      1 ≤ countBefore (dispatchLoop exec isRed red req ctx i fuel).events := by
  intro fuel
  induction fuel with
  | zero => intro i h; omega
  | succ f _ =>
      intro i _
      rw [dispatchLoop_succ]
      cases hex : exec i with
      | error e => simp [LoopRun.events, countBefore]
      | ok resp =>
          cases red with
          | false => simp [LoopRun.events, countBefore]
          | true =>
              cases hred : isRed resp with
              | error e => simp [hred, LoopRun.events, countBefore]
              | ok b =>
                  cases b with
                  | false => simp [hred, LoopRun.events, countBefore]
                  | true =>
                      cases hrec : dispatchLoop exec isRed true req ctx (i + 1) f with
                      | done evs2 res =>
                          simp [hred, hrec, LoopRun.events, countBefore]
                      | fuelOut evs2 =>
                          simp [hred, hrec, LoopRun.events, countBefore]

/-- The loop emits a second `before` event (it continues past the first
iteration) iff the redirect option is truthy and the classifier reports a
redirect; with JavaScript short-circuit, a falsy redirect option means the
classifier is never consulted. -/
theorem dispatchLoop_continue_iff {ε : Type} (exec : Nat → Except ε Response)
    (isRed : Response → Except ε Bool) (red : Bool) (req : Request)
    (ctx : Context) (resp : Response) (fuel : Nat)
    (hex : exec 0 = .ok resp) :
    2 ≤ countBefore (dispatchLoop exec isRed red req ctx 0 (fuel + 2)).events ↔
      red = true ∧ isRed resp = .ok true := by
  rw [dispatchLoop_succ, hex]
  cases red with
  | false => simp [LoopRun.events, countBefore]
  | true =>
      cases hred : isRed resp with
      | error e => simp [hred, LoopRun.events, countBefore]
      | ok b =>
          cases b with
          | false => simp [hred, LoopRun.events, countBefore]
          | true =>
              have hpos := countBefore_dispatchLoop_pos exec isRed true req ctx
                (fuel + 1) 1 (by omega)
              cases hrec : dispatchLoop exec isRed true req ctx 1 (fuel + 1) with
              | done evs2 res =>
                  rw [hrec] at hpos
                  simp only [LoopRun.events] at hpos
                  simp [hred, hrec, LoopRun.events, countBefore]
                  omega
              | fuelOut evs2 =>
                  rw [hrec] at hpos
                  simp only [LoopRun.events] at hpos
                  simp [hred, hrec, LoopRun.events, countBefore]
                  omega

/-- The loop itself never emits `error` events (only the `catch` block of
the dispatch entry points does). -/
theorem countError_dispatchLoop {ε : Type} (exec : Nat → Except ε Response)
    (isRed : Response → Except ε Bool) (red : Bool) (req : Request)
    (ctx : Context) :
    ∀ fuel i, countError (dispatchLoop exec isRed red req ctx i fuel).events = 0 := by
  intro fuel
  induction fuel with
  | zero => intro i; simp [dispatchLoop, LoopRun.events, countError]
  | succ f ih =>
      intro i
      rw [dispatchLoop_succ]
      cases hex : exec i with
      | error e => simp [LoopRun.events, countError]
      | ok resp =>
          cases red with
          | false => simp [LoopRun.events, countError]
          | true =>
              cases hred : isRed resp with
              | error e => simp [hred, LoopRun.events, countError]
              | ok b =>
                  cases b with
                  | false => simp [hred, LoopRun.events, countError]
                  | true =>
                      have hrec2 := ih (i + 1)
                      cases hrec : dispatchLoop exec isRed true req ctx (i + 1) f with
                      | done evs2 res =>
                          rw [hrec] at hrec2
                          simp only [LoopRun.events] at hrec2
                          simp [hred, hrec, LoopRun.events, countError, hrec2]
                      | fuelOut evs2 =>
                          rw [hrec] at hrec2
                          simp only [LoopRun.events] at hrec2
                          simp [hred, hrec, LoopRun.events, countError, hrec2]

/-! ### Claim theorems -/

/-- C1: for every dispatch call (routeSync or routeAsync) whose chain
executor yields a response the redirect classifier does not classify as a
redirect, exactly one `before` and one `after` event are emitted (the
trace is precisely `[before, after]`), and the returned RouteResult is the
final response's fields plus `url` equal to the URL of the last dispatched
request and `redirected = false` (no redirect hop occurred). -/
theorem route_non_redirect_single_dispatch {ε : Type}
    (exec : Nat → Request → Context → List Middleware → Except ε Response)
    (isRed : Response → Except ε Bool)
    (nr : RawRequest → Except ε Request)
    (nc : ExecutionContext → Except ε Context)
    (r : RouterState) (raw : RawRequest) (opts : Option RouteOptions)
    (fuel : Nat) (hfuel : 1 ≤ fuel) :
    (∀ req ctx resp,
      nr raw = .ok req → nc .Synchronous = .ok ctx →
      exec 0 req ctx r.middleware = .ok resp → isRed resp = .ok false →
      Router.routeSync exec isRed nr nc r raw opts fuel =
        .ok [.before req ctx, .after req resp ctx]
          { url := req.url, redirected := false, response := resp }) ∧
    (∀ req ctx resp,
      nr raw = .ok req → nc .Asynchronous = .ok ctx →
      exec 0 req ctx r.middleware = .ok resp → isRed resp = .ok false →
      Router.routeAsync exec isRed nr nc r raw opts fuel =
        .ok [.before req ctx, .after req resp ctx]
          { url := req.url, redirected := false, response := resp }) := by
  constructor
  · intro req ctx resp hnr hnc hex hred
    simp only [Router.routeSync, hnr, hnc]
    rw [dispatchLoop_once _ _ _ _ _ 0 fuel resp hex hfuel (Or.inr hred)]
  · intro req ctx resp hnr hnc hex hred
    simp only [Router.routeAsync, hnr, hnc]
    rw [dispatchLoop_once _ _ _ _ _ 0 fuel resp hex hfuel (Or.inr hred)]

/-- Witness for C1 at concrete inputs: a single registered-free router,
an executor returning status 200, a classifier answering `false`. -/
theorem route_non_redirect_single_dispatch_witness :
    Router.routeSync (ε := Unit) (fun _ _ _ _ => .ok ⟨200, [], some "ok"⟩)
        (fun _ => .ok false) (fun _ => .ok ⟨"get", "/x"⟩)
        (fun t => .ok ⟨t, 0⟩) RouterState.new ⟨none, none⟩ none 1 =
      .ok
        [.before ⟨"get", "/x"⟩ ⟨.Synchronous, 0⟩,
         .after ⟨"get", "/x"⟩ ⟨200, [], some "ok"⟩ ⟨.Synchronous, 0⟩]
        { url := "/x", redirected := false,
          response := ⟨200, [], some "ok"⟩ } :=
  (route_non_redirect_single_dispatch (ε := Unit)
      (fun _ _ _ _ => .ok ⟨200, [], some "ok"⟩) (fun _ => .ok false)
      (fun _ => .ok ⟨"get", "/x"⟩) (fun t => .ok ⟨t, 0⟩)
      RouterState.new ⟨none, none⟩ none 1 (by decide)).1
    ⟨"get", "/x"⟩ ⟨.Synchronous, 0⟩ ⟨200, [], some "ok"⟩ rfl rfl rfl rfl

/-- C5: with a falsy `redirect` option the loop body runs exactly once no
matter what the redirect classifier would say (it is not even consulted);
an absent `options` argument defaults to `{redirect: 'follow'}`; and the
loop continues past an iteration iff the redirect option is truthy AND the
classifier reports the response is a redirect. -/
theorem redirect_option_controls_loop {ε : Type} :
    (∀ (exec : Nat → Request → Context → List Middleware → Except ε Response)
        (isRed : Response → Except ε Bool) (nr : RawRequest → Except ε Request)
        (nc : ExecutionContext → Except ε Context) (r : RouterState)
        (raw : RawRequest) (o : RouteOptions) (fuel : Nat)
        (req : Request) (ctx : Context) (resp : Response),
        o.redirectTruthy = false → 1 ≤ fuel →
        nr raw = .ok req → nc .Synchronous = .ok ctx →
        exec 0 req ctx r.middleware = .ok resp →
        Router.routeSync exec isRed nr nc r raw (some o) fuel =
          .ok [.before req ctx, .after req resp ctx]
            { url := req.url, redirected := false, response := resp }) ∧
    (∀ (exec : Nat → Request → Context → List Middleware → Except ε Response)
        (isRed : Response → Except ε Bool) (nr : RawRequest → Except ε Request)
        (nc : ExecutionContext → Except ε Context) (r : RouterState)
        (raw : RawRequest) (o : RouteOptions) (fuel : Nat)
        (req : Request) (ctx : Context) (resp : Response),
        o.redirectTruthy = false → 1 ≤ fuel →
        nr raw = .ok req → nc .Asynchronous = .ok ctx →
        exec 0 req ctx r.middleware = .ok resp →
        Router.routeAsync exec isRed nr nc r raw (some o) fuel =
          .ok [.before req ctx, .after req resp ctx]
            { url := req.url, redirected := false, response := resp }) ∧
    (∀ (exec : Nat → Request → Context → List Middleware → Except ε Response)
        (isRed : Response → Except ε Bool) (nr : RawRequest → Except ε Request)
        (nc : ExecutionContext → Except ε Context) (r : RouterState)
        (raw : RawRequest) (fuel : Nat),
        Router.routeSync exec isRed nr nc r raw none fuel =
          Router.routeSync exec isRed nr nc r raw (some defaultRouteOptions) fuel ∧
        Router.routeAsync exec isRed nr nc r raw none fuel =
          Router.routeAsync exec isRed nr nc r raw (some defaultRouteOptions) fuel) ∧
    (∀ (exec : Nat → Except ε Response) (isRed : Response → Except ε Bool)
        (red : Bool) (req : Request) (ctx : Context) (resp : Response)
        (fuel : Nat),
        exec 0 = .ok resp →
        (2 ≤ countBefore (dispatchLoop exec isRed red req ctx 0 (fuel + 2)).events ↔
          red = true ∧ isRed resp = .ok true)) := by
  refine ⟨?_, ?_, ?_, ?_⟩
  · intro exec isRed nr nc r raw o fuel req ctx resp hfalsy hfuel hnr hnc hex
    simp only [Router.routeSync, hnr, hnc, Option.getD_some]
    rw [dispatchLoop_once _ _ _ _ _ 0 fuel resp hex hfuel (Or.inl hfalsy)]
  · intro exec isRed nr nc r raw o fuel req ctx resp hfalsy hfuel hnr hnc hex
    simp only [Router.routeAsync, hnr, hnc, Option.getD_some]
    rw [dispatchLoop_once _ _ _ _ _ 0 fuel resp hex hfuel (Or.inl hfalsy)]
  · intro exec isRed nr nc r raw fuel
    exact ⟨rfl, rfl⟩
  · intro exec isRed red req ctx resp fuel hex
    exact dispatchLoop_continue_iff exec isRed red req ctx resp fuel hex

/-- Witness for C5: with `{redirect: undefined}` a redirect-classified
response still yields a single loop iteration. -/
theorem redirect_option_controls_loop_witness :
    Router.routeSync (ε := Unit) (fun _ _ _ _ => .ok ⟨301, [], none⟩)
        (fun _ => .ok true) (fun _ => .ok ⟨"get", "/y"⟩)
        (fun t => .ok ⟨t, 0⟩) RouterState.new ⟨none, none⟩
        (some { redirect := none }) 5 =
      .ok
        [.before ⟨"get", "/y"⟩ ⟨.Synchronous, 0⟩,
         .after ⟨"get", "/y"⟩ ⟨301, [], none⟩ ⟨.Synchronous, 0⟩]
        { url := "/y", redirected := false, response := ⟨301, [], none⟩ } :=
  (redirect_option_controls_loop (ε := Unit)).1
    (fun _ _ _ _ => .ok ⟨301, [], none⟩) (fun _ => .ok true)
    (fun _ => .ok ⟨"get", "/y"⟩) (fun t => .ok ⟨t, 0⟩) RouterState.new
    ⟨none, none⟩ { redirect := none } 5 ⟨"get", "/y"⟩ ⟨.Synchronous, 0⟩
    ⟨301, [], none⟩ rfl (by decide) rfl rfl rfl

/-- C10: the `{redirect: 'follow'}` default applies only when the options
argument is omitted: an explicit options object with no `redirect` field
(`{}`) leaves `options.redirect` undefined, hence falsy, so the loop body
runs exactly once even for a redirect-classified response; whereas an
omitted options argument keeps following the redirect (a second `before`
event fires). -/
theorem empty_options_object_disables_redirects {ε : Type} :
    (∀ (exec : Nat → Request → Context → List Middleware → Except ε Response)
        (isRed : Response → Except ε Bool) (nr : RawRequest → Except ε Request)
        (nc : ExecutionContext → Except ε Context) (r : RouterState)
        (raw : RawRequest) (fuel : Nat)
        (req : Request) (ctx : Context) (resp : Response),
        1 ≤ fuel → nr raw = .ok req → nc .Synchronous = .ok ctx →
        exec 0 req ctx r.middleware = .ok resp → isRed resp = .ok true →
        Router.routeSync exec isRed nr nc r raw (some { redirect := none }) fuel =
          .ok [.before req ctx, .after req resp ctx]
            { url := req.url, redirected := false, response := resp }) ∧
    (∀ (exec : Nat → Request → Context → List Middleware → Except ε Response)
        (isRed : Response → Except ε Bool) (nr : RawRequest → Except ε Request)
        (nc : ExecutionContext → Except ε Context) (r : RouterState)
        (raw : RawRequest) (fuel : Nat)
        (req : Request) (ctx : Context) (resp : Response),
        1 ≤ fuel → nr raw = .ok req → nc .Asynchronous = .ok ctx →
        exec 0 req ctx r.middleware = .ok resp → isRed resp = .ok true →
        Router.routeAsync exec isRed nr nc r raw (some { redirect := none }) fuel =
          .ok [.before req ctx, .after req resp ctx]
            { url := req.url, redirected := false, response := resp }) ∧
    (∀ (exec : Nat → Request → Context → List Middleware → Except ε Response)
        (isRed : Response → Except ε Bool) (nr : RawRequest → Except ε Request)
        (nc : ExecutionContext → Except ε Context) (r : RouterState)
        (raw : RawRequest) (fuel : Nat)
        (req : Request) (ctx : Context) (resp : Response),
        nr raw = .ok req → nc .Synchronous = .ok ctx →
        (∀ i, exec i req ctx r.middleware = .ok resp) → isRed resp = .ok true →
        2 ≤ countBefore
          (Router.routeSync exec isRed nr nc r raw none (fuel + 2)).events) := by
  refine ⟨?_, ?_, ?_⟩
  · intro exec isRed nr nc r raw fuel req ctx resp hfuel hnr hnc hex _
    simp only [Router.routeSync, hnr, hnc, Option.getD_some]
    rw [dispatchLoop_once _ _ _ _ _ 0 fuel resp hex hfuel
      (Or.inl (show RouteOptions.redirectTruthy { redirect := none } = false
        from rfl))]
  · intro exec isRed nr nc r raw fuel req ctx resp hfuel hnr hnc hex _
    simp only [Router.routeAsync, hnr, hnc, Option.getD_some]
    rw [dispatchLoop_once _ _ _ _ _ 0 fuel resp hex hfuel
      (Or.inl (show RouteOptions.redirectTruthy { redirect := none } = false
        from rfl))]
  · intro exec isRed nr nc r raw fuel req ctx resp hnr hnc hex hred
    simp only [Router.routeSync, hnr, hnc, Option.getD_none]
    have hdt : defaultRouteOptions.redirectTruthy = true := rfl
    rw [hdt]
    have hloop :=
      (dispatchLoop_continue_iff (fun i => exec i req ctx r.middleware) isRed
        true req ctx resp fuel (hex 0)).mpr ⟨rfl, hred⟩
    cases hrec : dispatchLoop (fun i => exec i req ctx r.middleware) isRed
        true req ctx 0 (fuel + 2) with
    | done evs res =>
        rw [hrec] at hloop
        simp only [LoopRun.events] at hloop
        cases res with
        | ok resp2 => simpa [RouteOutcome.events] using hloop
        | error e =>
            simpa [RouteOutcome.events, countBefore_append, countBefore]
              using hloop
    | fuelOut evs =>
        rw [hrec] at hloop
        simp only [LoopRun.events] at hloop
        simpa [RouteOutcome.events] using hloop

/-- Witness for C10: an explicit `{}` options object stops a 301 response
from being re-dispatched. -/
theorem empty_options_object_disables_redirects_witness :
    Router.routeSync (ε := Unit) (fun _ _ _ _ => .ok ⟨301, [], none⟩)
        (fun _ => .ok true) (fun _ => .ok ⟨"get", "/z"⟩)
        (fun t => .ok ⟨t, 0⟩) RouterState.new ⟨none, none⟩
        (some { redirect := none }) 3 =
      .ok
        [.before ⟨"get", "/z"⟩ ⟨.Synchronous, 0⟩,
         .after ⟨"get", "/z"⟩ ⟨301, [], none⟩ ⟨.Synchronous, 0⟩]
        { url := "/z", redirected := false, response := ⟨301, [], none⟩ } :=
  (empty_options_object_disables_redirects (ε := Unit)).1
    (fun _ _ _ _ => .ok ⟨301, [], none⟩) (fun _ => .ok true)
    (fun _ => .ok ⟨"get", "/z"⟩) (fun t => .ok ⟨t, 0⟩) RouterState.new
    ⟨none, none⟩ 3 ⟨"get", "/z"⟩ ⟨.Synchronous, 0⟩ ⟨301, [], none⟩
    (by decide) rfl rfl rfl rfl

/-- C2: any value thrown inside the dispatch loop is caught exactly once:
the outcome carries the loop's events followed by exactly one `error`
event, whose payload uses the (only, hence most recent) request and
context, and the same value is re-raised to the caller (routeSync raises,
routeAsync rejects).  Moreover the outcome is entirely independent of the
subscribed listeners: two router states with the same middleware list
dispatch identically. -/
theorem route_error_caught_once_and_reraised {ε : Type} :
    (∀ (exec : Nat → Request → Context → List Middleware → Except ε Response)
        (isRed : Response → Except ε Bool) (nr : RawRequest → Except ε Request)
        (nc : ExecutionContext → Except ε Context) (r : RouterState)
        (raw : RawRequest) (opts : Option RouteOptions) (fuel : Nat)
        (req : Request) (ctx : Context) (evs : List (Event ε)) (e : ε),
        nr raw = .ok req → nc .Synchronous = .ok ctx →
        dispatchLoop (fun i => exec i req ctx r.middleware) isRed
            (opts.getD defaultRouteOptions).redirectTruthy req ctx 0 fuel =
          .done evs (.error e) →
        Router.routeSync exec isRed nr nc r raw opts fuel =
            .raised (evs ++ [.error req e ctx]) e ∧
          countError (evs ++ [.error req e ctx]) = 1) ∧
    (∀ (exec : Nat → Request → Context → List Middleware → Except ε Response)
        (isRed : Response → Except ε Bool) (nr : RawRequest → Except ε Request)
        (nc : ExecutionContext → Except ε Context) (r : RouterState)
        (raw : RawRequest) (opts : Option RouteOptions) (fuel : Nat)
        (req : Request) (ctx : Context) (evs : List (Event ε)) (e : ε),
        nr raw = .ok req → nc .Asynchronous = .ok ctx →
        dispatchLoop (fun i => exec i req ctx r.middleware) isRed
            (opts.getD defaultRouteOptions).redirectTruthy req ctx 0 fuel =
          .done evs (.error e) →
        Router.routeAsync exec isRed nr nc r raw opts fuel =
            .raised (evs ++ [.error req e ctx]) e ∧
          countError (evs ++ [.error req e ctx]) = 1) ∧
    (∀ (exec : Nat → Request → Context → List Middleware → Except ε Response)
        (isRed : Response → Except ε Bool) (nr : RawRequest → Except ε Request)
        (nc : ExecutionContext → Except ε Context) (r r' : RouterState)
        (raw : RawRequest) (opts : Option RouteOptions) (fuel : Nat),
        r.middleware = r'.middleware →
        Router.routeSync exec isRed nr nc r raw opts fuel =
            Router.routeSync exec isRed nr nc r' raw opts fuel ∧
          Router.routeAsync exec isRed nr nc r raw opts fuel =
            Router.routeAsync exec isRed nr nc r' raw opts fuel) := by
  refine ⟨?_, ?_, ?_⟩
  · intro exec isRed nr nc r raw opts fuel req ctx evs e hnr hnc hloop
    have hzero := countError_dispatchLoop (fun i => exec i req ctx r.middleware)
      isRed (opts.getD defaultRouteOptions).redirectTruthy req ctx fuel 0
    rw [hloop] at hzero
    simp only [LoopRun.events] at hzero
    constructor
    · simp only [Router.routeSync, hnr, hnc, hloop]
    · simp [countError_append, countError, hzero]
  · intro exec isRed nr nc r raw opts fuel req ctx evs e hnr hnc hloop
    have hzero := countError_dispatchLoop (fun i => exec i req ctx r.middleware)
      isRed (opts.getD defaultRouteOptions).redirectTruthy req ctx fuel 0
    rw [hloop] at hzero
    simp only [LoopRun.events] at hzero
    constructor
    · simp only [Router.routeAsync, hnr, hnc, hloop]
    · simp [countError_append, countError, hzero]
  · intro exec isRed nr nc r r' raw opts fuel hm
    constructor
    · simp only [Router.routeSync, hm]
    · simp only [Router.routeAsync, hm]

/-- Witness for C2 at a concrete throwing executor: the thrown value `42`
is reported in one `error` event and re-raised. -/
theorem route_error_caught_once_and_reraised_witness :
    Router.routeSync (ε := Nat) (fun _ _ _ _ => .error 42) (fun _ => .ok false)
        (fun _ => .ok ⟨"get", "/e"⟩) (fun t => .ok ⟨t, 0⟩)
        RouterState.new ⟨none, none⟩ none 1 =
        .raised
          [.before ⟨"get", "/e"⟩ ⟨.Synchronous, 0⟩,
           .error ⟨"get", "/e"⟩ 42 ⟨.Synchronous, 0⟩] 42 ∧
      countError
        [Event.before ⟨"get", "/e"⟩ ⟨.Synchronous, 0⟩,
         Event.error (ε := Nat) ⟨"get", "/e"⟩ 42 ⟨.Synchronous, 0⟩] = 1 :=
  (route_error_caught_once_and_reraised (ε := Nat)).1
    (fun _ _ _ _ => .error 42) (fun _ => .ok false)
    (fun _ => .ok ⟨"get", "/e"⟩) (fun t => .ok ⟨t, 0⟩) RouterState.new
    ⟨none, none⟩ none 1 ⟨"get", "/e"⟩ ⟨.Synchronous, 0⟩
    [.before ⟨"get", "/e"⟩ ⟨.Synchronous, 0⟩] 42 rfl rfl rfl

/-- C8: a failure of request normalisation or of context construction
propagates from the dispatch call itself (raised by routeSync, rejected by
routeAsync) with no `before`, `after`, or `error` event emitted: the event
trace of the outcome is empty. -/
theorem normalisation_failure_bypasses_events {ε : Type} :
    (∀ (exec : Nat → Request → Context → List Middleware → Except ε Response)
        (isRed : Response → Except ε Bool) (nr : RawRequest → Except ε Request)
        (nc : ExecutionContext → Except ε Context) (r : RouterState)
        (raw : RawRequest) (opts : Option RouteOptions) (fuel : Nat) (e : ε),
        nr raw = .error e →
        Router.routeSync exec isRed nr nc r raw opts fuel = .raised [] e ∧
        Router.routeAsync exec isRed nr nc r raw opts fuel = .raised [] e) ∧
    (∀ (exec : Nat → Request → Context → List Middleware → Except ε Response)
        (isRed : Response → Except ε Bool) (nr : RawRequest → Except ε Request)
        (nc : ExecutionContext → Except ε Context) (r : RouterState)
        (raw : RawRequest) (opts : Option RouteOptions) (fuel : Nat)
        (req : Request) (e : ε),
        nr raw = .ok req →
        (nc .Synchronous = .error e →
          Router.routeSync exec isRed nr nc r raw opts fuel = .raised [] e) ∧
        (nc .Asynchronous = .error e →
          Router.routeAsync exec isRed nr nc r raw opts fuel = .raised [] e)) := by
  constructor
  · intro exec isRed nr nc r raw opts fuel e hnr
    constructor
    · simp only [Router.routeSync, hnr]
    · simp only [Router.routeAsync, hnr]
  · intro exec isRed nr nc r raw opts fuel req e hnr
    constructor
    · intro hnc
      simp only [Router.routeSync, hnr, hnc]
    · intro hnc
      simp only [Router.routeAsync, hnr, hnc]

/-- Witness for C8: a normaliser that throws `7` makes the dispatch call
raise `7` with an empty event trace. -/
theorem normalisation_failure_bypasses_events_witness :
    Router.routeSync (ε := Nat) (fun _ _ _ _ => .ok ⟨200, [], none⟩)
        (fun _ => .ok false) (fun _ => .error 7) (fun t => .ok ⟨t, 0⟩)
        RouterState.new ⟨none, none⟩ none 1 = .raised [] 7 :=
  ((normalisation_failure_bypasses_events (ε := Nat)).1
    (fun _ _ _ _ => .ok ⟨200, [], none⟩) (fun _ => .ok false)
    (fun _ => .error 7) (fun t => .ok ⟨t, 0⟩) RouterState.new
    ⟨none, none⟩ none 1 7 rfl).1

/-- Does this subscription call subscribe an `error` listener? -/
def isOnError : ListenOp → Bool
  | .on .error _ => true
  | _ => false

theorem applyListen_error_absent (r : RouterState) (op : ListenOp)
    (h : Listener.defaultError ∉ r.errorListeners) :
    Listener.defaultError ∉ (applyListen r op).errorListeners := by
  rcases op with ⟨t, id⟩ | ⟨t, id⟩
  · cases t with
    | before => simpa [applyListen, RouterState.on] using h
    | after => simpa [applyListen, RouterState.on] using h
    | error =>
        intro hmem
        simp only [applyListen, RouterState.on, emitterOn, emitterOff] at hmem
        rcases List.mem_append.mp (List.mem_of_mem_erase hmem) with h1 | h1
        · exact h h1
        · simp at h1
  · cases t with
    | before => simpa [applyListen, RouterState.off] using h
    | after => simpa [applyListen, RouterState.off] using h
    | error =>
        intro hmem
        simp only [applyListen, RouterState.off, emitterOff] at hmem
        exact h (List.mem_of_mem_erase hmem)

theorem applyListens_error_absent (ops : List ListenOp) :
    ∀ r : RouterState, Listener.defaultError ∉ r.errorListeners →
      Listener.defaultError ∉ (applyListens r ops).errorListeners := by
  induction ops with
  | nil => intro r h; exact h
  | cons op rest ih =>
      intro r h
      exact ih (applyListen r op) (applyListen_error_absent r op h)

theorem applyListen_count_le (r : RouterState) (op : ListenOp)
    (h : List.count Listener.defaultError r.errorListeners ≤ 1) :
    List.count Listener.defaultError (applyListen r op).errorListeners ≤ 1 := by
  rcases op with ⟨t, id⟩ | ⟨t, id⟩
  · cases t with
    | before => simpa [applyListen, RouterState.on] using h
    | after => simpa [applyListen, RouterState.on] using h
    | error =>
        simp only [applyListen, RouterState.on, emitterOn, emitterOff]
        rw [List.count_erase_self, List.count_append]
        have h2 : List.count Listener.defaultError [Listener.user id] = 0 := by
          simp [List.count_singleton]
        omega
  · cases t with
    | before => simpa [applyListen, RouterState.off] using h
    | after => simpa [applyListen, RouterState.off] using h
    | error =>
        simp only [applyListen, RouterState.off, emitterOff]
        rw [List.count_erase_of_ne (by simp)]
        exact h

theorem applyListens_count_le (ops : List ListenOp) :
    ∀ r : RouterState, List.count Listener.defaultError r.errorListeners ≤ 1 →
      List.count Listener.defaultError (applyListens r ops).errorListeners ≤ 1 := by
  induction ops with
  | nil => intro r h; exact h
  | cons op rest ih =>
      intro r h
      exact ih (applyListen r op) (applyListen_count_le r op h)

theorem applyListen_on_error_removes_default (r : RouterState) (id : Nat)
    (h : List.count Listener.defaultError r.errorListeners ≤ 1) :
    Listener.defaultError ∉ (applyListen r (.on .error id)).errorListeners := by
  rw [← List.count_eq_zero]
  simp only [applyListen, RouterState.on, emitterOn, emitterOff]
  rw [List.count_erase_self, List.count_append]
  have h2 : List.count Listener.defaultError [Listener.user id] = 0 := by
    simp [List.count_singleton]
  omega

theorem applyListen_preserves_default (r : RouterState) (op : ListenOp)
    (hop : isOnError op = false)
    (h : Listener.defaultError ∈ r.errorListeners) :
    Listener.defaultError ∈ (applyListen r op).errorListeners := by
  rcases op with ⟨t, id⟩ | ⟨t, id⟩
  · cases t with
    | before => simpa [applyListen, RouterState.on] using h
    | after => simpa [applyListen, RouterState.on] using h
    | error => simp [isOnError] at hop
  · cases t with
    | before => simpa [applyListen, RouterState.off] using h
    | after => simpa [applyListen, RouterState.off] using h
    | error =>
        simp only [applyListen, RouterState.off, emitterOff]
        exact (List.mem_erase_of_ne (by simp)).mpr h

theorem applyListens_preserve_default (ops : List ListenOp) :
    ∀ r : RouterState, ops.all (fun op => !isOnError op) = true →
      Listener.defaultError ∈ r.errorListeners →
      Listener.defaultError ∈ (applyListens r ops).errorListeners := by
  induction ops with
  | nil => intro r _ h; exact h
  | cons op rest ih =>
      intro r hall h
      simp only [List.all_cons, Bool.and_eq_true, Bool.not_eq_true'] at hall
      exact ih (applyListen r op)
        (by simp only [List.all_eq_true] at hall ⊢; exact fun x hx =>
          by simpa using hall.2 x hx)
        (applyListen_preserves_default r op hall.1 h)

/-- C3: at construction the default error listener is the sole error
listener, so before the first user `on('error', …)` call every emitted
`error` event is delivered to it; the first user `on('error', …)` call
removes it, and no later subscription or unsubscription ever brings it
back — the handoff is one-way. -/
theorem default_error_listener_one_way_handoff :
    RouterState.new.errorDelivery = [Listener.defaultError] ∧
    (∀ ops : List ListenOp, ops.all (fun op => !isOnError op) = true →
      Listener.defaultError ∈ (applyListens RouterState.new ops).errorDelivery) ∧
    (∀ (pre : List ListenOp) (id : Nat) (post : List ListenOp),
      Listener.defaultError ∉
        (applyListens RouterState.new
          (pre ++ ListenOp.on .error id :: post)).errorDelivery) := by
  refine ⟨rfl, ?_, ?_⟩
  · intro ops hall
    exact applyListens_preserve_default ops RouterState.new hall (by decide)
  · intro pre id post
    have hfold :
        applyListens RouterState.new (pre ++ ListenOp.on .error id :: post) =
          applyListens
            (applyListen (applyListens RouterState.new pre) (.on .error id))
            post := by
      simp [applyListens, List.foldl_append]
    rw [hfold]
    exact applyListens_error_absent post _
      (applyListen_on_error_removes_default _ id
        (applyListens_count_le pre RouterState.new (by decide)))

/-- Witness for C3: subscribing a `before` listener and unsubscribing a
never-subscribed error listener leaves the default error listener
receiving error events. -/
theorem default_error_listener_one_way_handoff_witness :
    ([ListenOp.on .before 0, ListenOp.off .error 1].all
        (fun op => !isOnError op) = true) ∧
      Listener.defaultError ∈
        (applyListens RouterState.new
          [ListenOp.on .before 0, ListenOp.off .error 1]).errorDelivery :=
  ⟨by decide,
    default_error_listener_one_way_handoff.2.1
      [ListenOp.on .before 0, ListenOp.off .error 1] (by decide)⟩

/-- C4 counterexample: a bare function first argument passed alongside a
second positional argument that is not resolvable as path+handler (a path
with no third argument) does NOT raise a TypeError — the
`typeof methodOrMiddleware === 'function'` branch fires first, the
function is appended, and the extra argument is silently ignored. -/
theorem use_fn_with_extra_arg_appends :
    RouterState.new.use (fun _ _ _ => Middleware.mk 0) (.fn (Middleware.mk 7))
        (some (.str "unresolvable-extra-arg")) none =
      .ok { RouterState.new with middleware := [Middleware.mk 7] } := rfl

/-- C4 (amended): a function first argument is always appended as-is, with
any extra positional arguments ignored; a method-pattern first argument
with a present truthy path and a present middleware-or-response appends the
synthesized middleware; a method-pattern first argument whose path is
absent or falsy (the empty string) or whose middleware-or-response is
absent raises `TypeError('Invalid arguments.')` at registration time,
reaching no event bus and leaving the middleware list unchanged (the error
result carries no updated state). -/
theorem use_argument_shapes
    (cm : MethodPattern → URLPathPattern → MiddlewareOrResponse → Middleware)
    (r : RouterState) :
    (∀ (m : Middleware) (path : Option URLPathPattern)
        (mor : Option MiddlewareOrResponse),
      r.use cm (.fn m) path mor =
        .ok { r with middleware := r.middleware ++ [m] }) ∧
    (∀ (s : MethodPattern) (p : URLPathPattern) (mo : MiddlewareOrResponse),
      p.truthy = true →
      r.use cm (.method s) (some p) (some mo) =
        .ok { r with middleware := r.middleware ++ [cm s p mo] }) ∧
    (∀ (s : MethodPattern) (p : URLPathPattern) (mo : MiddlewareOrResponse),
      p.truthy = false →
      r.use cm (.method s) (some p) (some mo) =
        .error (.typeError "Invalid arguments.")) ∧
    (∀ (s : MethodPattern) (path : Option URLPathPattern),
      r.use cm (.method s) path none =
        .error (.typeError "Invalid arguments.")) ∧
    (∀ (s : MethodPattern) (mo : MiddlewareOrResponse),
      r.use cm (.method s) none (some mo) =
        .error (.typeError "Invalid arguments.")) := by
  refine ⟨fun m path mor => rfl, ?_, ?_, ?_, fun s mo => rfl⟩
  · intro s p mo hp
    simp [RouterState.use, hp]
  · intro s p mo hp
    simp [RouterState.use, hp]
  · intro s path
    rcases path with _ | p
    · rfl
    · rfl

/-- Witness for C4 (amended): registering `use('get', '/x', response)`
appends the synthesized middleware. -/
theorem use_argument_shapes_witness :
    URLPathPattern.truthy (.str "/x") = true ∧
      RouterState.new.use (fun _ _ _ => Middleware.mk 1) (.method "get")
          (some (.str "/x")) (some (.response {})) =
        .ok { RouterState.new with middleware := [Middleware.mk 1] } :=
  ⟨by decide,
    (use_argument_shapes (fun _ _ _ => Middleware.mk 1) RouterState.new).2.1
      "get" (.str "/x") (.response {}) (by decide)⟩

/-- C6: each of the eight HTTP-verb convenience wrappers produces exactly
the state transition of the three-argument `use` with its fixed method
pattern (`*` for `all`, the verb name for the others), for every
createMiddleware collaborator, router state, path and handler. -/
theorem verb_aliases_equal_use
    (cm : MethodPattern → URLPathPattern → MiddlewareOrResponse → Middleware)
    (r : RouterState) (p : URLPathPattern) (m : MiddlewareOrResponse) :
    r.all cm p m = r.use cm (.method "*") (some p) (some m) ∧
    r.optionsVerb cm p m = r.use cm (.method "options") (some p) (some m) ∧
    r.head cm p m = r.use cm (.method "head") (some p) (some m) ∧
    r.get cm p m = r.use cm (.method "get") (some p) (some m) ∧
    r.post cm p m = r.use cm (.method "post") (some p) (some m) ∧
    r.put cm p m = r.use cm (.method "put") (some p) (some m) ∧
    r.patch cm p m = r.use cm (.method "patch") (some p) (some m) ∧
    r.delete cm p m = r.use cm (.method "delete") (some p) (some m) :=
  ⟨rfl, rfl, rfl, rfl, rfl, rfl, rfl, rfl⟩

theorem use3_append
    (cm : MethodPattern → URLPathPattern → MiddlewareOrResponse → Middleware)
    (r : RouterState) (s : MethodPattern) (p : URLPathPattern)
    (mo : MiddlewareOrResponse) (r' : RouterState)
    (h : r.use cm (.method s) (some p) (some mo) = .ok r') :
    r'.middleware = r.middleware ++ [cm s p mo] := by
  by_cases hp : p.truthy
  · simp only [RouterState.use, hp, if_true, Except.ok.injEq] at h
    rw [← h]
  · simp [RouterState.use, hp] at h

/-- C7: every successful registration call (raw `use` in any shape, or any
verb wrapper) appends exactly one middleware at the end of the list,
leaving existing entries untouched, and a successful sequence of
registrations yields the middleware list in call order. -/
theorem registration_append_only
    (cm : MethodPattern → URLPathPattern → MiddlewareOrResponse → Middleware) :
    (∀ (r : RouterState) (op : RegOp) (r' : RouterState),
      applyReg cm r op = .ok r' →
      r'.middleware = r.middleware ++ [regMiddleware cm op]) ∧
    (∀ (ops : List RegOp) (r r' : RouterState),
      applyRegs cm r ops = .ok r' →
      r'.middleware = r.middleware ++ ops.map (regMiddleware cm)) := by
  have hstep : ∀ (r : RouterState) (op : RegOp) (r' : RouterState),
      applyReg cm r op = .ok r' →
      r'.middleware = r.middleware ++ [regMiddleware cm op] := by
    intro r op r' h
    rcases op with ⟨first, path, mor⟩ | ⟨p, m⟩ | ⟨p, m⟩ | ⟨p, m⟩ | ⟨p, m⟩ |
      ⟨p, m⟩ | ⟨p, m⟩ | ⟨p, m⟩ | ⟨p, m⟩
    · rcases first with m | s
      · simp only [applyReg, RouterState.use, Except.ok.injEq] at h
        rw [← h]
        rfl
      · rcases path with _ | p
        · rcases mor with _ | mo
          · simp [applyReg, RouterState.use] at h
          · simp [applyReg, RouterState.use] at h
        · rcases mor with _ | mo
          · simp [applyReg, RouterState.use] at h
          · exact use3_append cm r s p mo r' h
    · exact use3_append cm r "*" p m r' h
    · exact use3_append cm r "options" p m r' h
    · exact use3_append cm r "head" p m r' h
    · exact use3_append cm r "get" p m r' h
    · exact use3_append cm r "post" p m r' h
    · exact use3_append cm r "put" p m r' h
    · exact use3_append cm r "patch" p m r' h
    · exact use3_append cm r "delete" p m r' h
  refine ⟨hstep, ?_⟩
  intro ops
  induction ops with
  | nil =>
      intro r r' h
      have h' : (.ok r : Except RegError RouterState) = .ok r' := h
      injection h' with h2
      rw [← h2]
      simp
  | cons op rest ih =>
      intro r r' h
      have h' : (match applyReg cm r op with
          | .error e => (.error e : Except RegError RouterState)
          | .ok r1 => applyRegs cm r1 rest) = .ok r' := h
      cases hop : applyReg cm r op with
      | error e => rw [hop] at h'; simp at h'
      | ok r1 =>
          rw [hop] at h'
          simp only at h'
          have h1 := hstep r op r1 hop
          have h2 := ih r1 r' h'
          rw [h2, h1, List.map_cons, List.append_assoc]
          rfl

/-- Witness for C7: registering a raw middleware then a `get` route yields
the two middlewares in call order. -/
theorem registration_append_only_witness :
    applyRegs (fun _ _ _ => Middleware.mk 9) RouterState.new
        [RegOp.use (.fn (Middleware.mk 3)) none none,
         RegOp.get (.str "/a") (.response {})] =
      .ok { RouterState.new with
              middleware := [Middleware.mk 3, Middleware.mk 9] } ∧
    [Middleware.mk 3, Middleware.mk 9] =
      RouterState.new.middleware ++
        [RegOp.use (.fn (Middleware.mk 3)) none none,
         RegOp.get (.str "/a") (.response {})].map
          (regMiddleware (fun _ _ _ => Middleware.mk 9)) :=
  ⟨rfl,
    (registration_append_only (fun _ _ _ => Middleware.mk 9)).2
      [RegOp.use (.fn (Middleware.mk 3)) none none,
       RegOp.get (.str "/a") (.response {})] RouterState.new
      { RouterState.new with middleware := [Middleware.mk 3, Middleware.mk 9] }
      rfl⟩

theorem Context.scrub_congr {c1 c2 : Context} (h : c1.data = c2.data) :
    c1.scrub = c2.scrub := by
  cases c1
  cases c2
  simp_all [Context.scrub]

/-- Two loop runs over contexts that differ only in the execution tag and
over executors producing identical results are identical modulo the tag. -/
theorem dispatchLoop_scrub {ε : Type} (e1 e2 : Nat → Except ε Response)
    (isRed : Response → Except ε Bool) (red : Bool) (req : Request)
    (c1 c2 : Context) (hd : c1.data = c2.data) (he : ∀ i, e1 i = e2 i) :
    ∀ (fuel i : Nat),
      (dispatchLoop e1 isRed red req c1 i fuel).scrub =
        (dispatchLoop e2 isRed red req c2 i fuel).scrub := by
  have hcs : c1.scrub = c2.scrub := Context.scrub_congr hd
  intro fuel
  induction fuel with
  | zero => intro i; rfl
  | succ f ih =>
      intro i
      rw [dispatchLoop_succ, dispatchLoop_succ, he i]
      cases he2 : e2 i with
      | error e => simp [LoopRun.scrub, Event.scrub, hcs]
      | ok resp =>
          cases red with
          | false => simp [LoopRun.scrub, Event.scrub, hcs]
          | true =>
              cases hred : isRed resp with
              | error e => simp [hred, LoopRun.scrub, Event.scrub, hcs]
              | ok b =>
                  cases b with
                  | false => simp [hred, LoopRun.scrub, Event.scrub, hcs]
                  | true =>
                      have hih := ih (i + 1)
                      cases h1 : dispatchLoop e1 isRed true req c1 (i + 1) f with
                      | done evs1 res1 =>
                          cases h2 : dispatchLoop e2 isRed true req c2 (i + 1) f with
                          | done evs2 res2 =>
                              rw [h1, h2] at hih
                              simp only [LoopRun.scrub, LoopRun.done.injEq] at hih
                              simp [hred, LoopRun.scrub, Event.scrub, hcs,
                                hih.1, hih.2]
                          | fuelOut evs2 =>
                              rw [h1, h2] at hih
                              simp [LoopRun.scrub] at hih
                      | fuelOut evs1 =>
                          cases h2 : dispatchLoop e2 isRed true req c2 (i + 1) f with
                          | done evs2 res2 =>
                              rw [h1, h2] at hih
                              simp [LoopRun.scrub] at hih
                          | fuelOut evs2 =>
                              rw [h1, h2] at hih
                              simp only [LoopRun.scrub, LoopRun.fuelOut.injEq] at hih
                              simp [hred, LoopRun.scrub, Event.scrub, hcs, hih]

/-- C9: routeSync and routeAsync run the same state machine, differing
only in the execution tag placed in the context: whenever the context
normaliser returns contexts agreeing outside the tag (or fails
identically) and the two chain executors produce the same results, the
two entry points produce the same outcome — same RouteResult, same
raised/rejected error, and the same event sequence modulo the execution
tag inside the contexts. -/
theorem routeSync_routeAsync_same_machine {ε : Type} :
    (∀ (execS execA : Nat → Request → Context → List Middleware → Except ε Response)
        (isRed : Response → Except ε Bool) (nr : RawRequest → Except ε Request)
        (nc : ExecutionContext → Except ε Context) (r : RouterState)
        (raw : RawRequest) (opts : Option RouteOptions) (fuel : Nat) (e : ε),
      nr raw = .error e →
      Router.routeAsync execA isRed nr nc r raw opts fuel =
        Router.routeSync execS isRed nr nc r raw opts fuel) ∧
    (∀ (execS execA : Nat → Request → Context → List Middleware → Except ε Response)
        (isRed : Response → Except ε Bool) (nr : RawRequest → Except ε Request)
        (nc : ExecutionContext → Except ε Context) (r : RouterState)
        (raw : RawRequest) (opts : Option RouteOptions) (fuel : Nat)
        (req : Request) (e : ε),
      nr raw = .ok req → nc .Synchronous = .error e → nc .Asynchronous = .error e →
      Router.routeAsync execA isRed nr nc r raw opts fuel =
        Router.routeSync execS isRed nr nc r raw opts fuel) ∧
    (∀ (execS execA : Nat → Request → Context → List Middleware → Except ε Response)
        (isRed : Response → Except ε Bool) (nr : RawRequest → Except ε Request)
        (nc : ExecutionContext → Except ε Context) (r : RouterState)
        (raw : RawRequest) (opts : Option RouteOptions) (fuel : Nat)
        (req : Request) (ctxS ctxA : Context),
      nr raw = .ok req → nc .Synchronous = .ok ctxS → nc .Asynchronous = .ok ctxA →
      ctxA.data = ctxS.data →
      (∀ i, execA i req ctxA r.middleware = execS i req ctxS r.middleware) →
      (Router.routeAsync execA isRed nr nc r raw opts fuel).scrub =
        (Router.routeSync execS isRed nr nc r raw opts fuel).scrub) := by
  refine ⟨?_, ?_, ?_⟩
  · intro execS execA isRed nr nc r raw opts fuel e hnr
    simp only [Router.routeSync, Router.routeAsync, hnr]
  · intro execS execA isRed nr nc r raw opts fuel req e hnr hS hA
    simp only [Router.routeSync, Router.routeAsync, hnr, hS, hA]
  · intro execS execA isRed nr nc r raw opts fuel req ctxS ctxA hnr hS hA hdata hexec
    have hcs : ctxA.scrub = ctxS.scrub := Context.scrub_congr hdata
    have hloop := dispatchLoop_scrub (fun i => execA i req ctxA r.middleware)
      (fun i => execS i req ctxS r.middleware) isRed
      (opts.getD defaultRouteOptions).redirectTruthy req ctxA ctxS hdata hexec
      fuel 0
    simp only [Router.routeSync, Router.routeAsync, hnr, hS, hA]
    cases hA2 : dispatchLoop (fun i => execA i req ctxA r.middleware) isRed
        (opts.getD defaultRouteOptions).redirectTruthy req ctxA 0 fuel with
    | done evsA resA =>
        cases hS2 : dispatchLoop (fun i => execS i req ctxS r.middleware) isRed
            (opts.getD defaultRouteOptions).redirectTruthy req ctxS 0 fuel with
        | done evsS resS =>
            rw [hA2, hS2] at hloop
            simp only [LoopRun.scrub, LoopRun.done.injEq] at hloop
            obtain ⟨hevs, hres⟩ := hloop
            subst hres
            cases resA with
            | ok resp => simp [RouteOutcome.scrub, hevs]
            | error e =>
                simp [RouteOutcome.scrub, Event.scrub, List.map_append, hevs, hcs]
        | fuelOut evsS =>
            rw [hA2, hS2] at hloop
            simp [LoopRun.scrub] at hloop
    | fuelOut evsA =>
        cases hS2 : dispatchLoop (fun i => execS i req ctxS r.middleware) isRed
            (opts.getD defaultRouteOptions).redirectTruthy req ctxS 0 fuel with
        | done evsS resS =>
            rw [hA2, hS2] at hloop
            simp [LoopRun.scrub] at hloop
        | fuelOut evsS =>
            rw [hA2, hS2] at hloop
            simp only [LoopRun.scrub, LoopRun.fuelOut.injEq] at hloop
            simp [RouteOutcome.scrub, hloop]

/-- Witness for C9: with a shared executor and a context normaliser that
differs only in the tag, the async outcome equals the sync outcome modulo
the tag. -/
theorem routeSync_routeAsync_same_machine_witness :
    (Router.routeAsync (ε := Unit) (fun _ _ _ _ => .ok ⟨200, [], none⟩)
        (fun _ => .ok false) (fun _ => .ok ⟨"get", "/w"⟩)
        (fun t => .ok ⟨t, 5⟩) RouterState.new ⟨none, none⟩ none 1).scrub =
      (Router.routeSync (ε := Unit) (fun _ _ _ _ => .ok ⟨200, [], none⟩)
        (fun _ => .ok false) (fun _ => .ok ⟨"get", "/w"⟩)
        (fun t => .ok ⟨t, 5⟩) RouterState.new ⟨none, none⟩ none 1).scrub :=
  (routeSync_routeAsync_same_machine (ε := Unit)).2.2
    (fun _ _ _ _ => .ok ⟨200, [], none⟩) (fun _ _ _ _ => .ok ⟨200, [], none⟩)
    (fun _ => .ok false) (fun _ => .ok ⟨"get", "/w"⟩) (fun t => .ok ⟨t, 5⟩)
    RouterState.new ⟨none, none⟩ none 1 ⟨"get", "/w"⟩
    ⟨.Synchronous, 5⟩ ⟨.Asynchronous, 5⟩ rfl rfl rfl rfl (fun _ => rfl)

end XhrMock
